import Mathlib

/-!
Verification of the in-memory CRUD service in `app/main.py` / `app/models.py`.

The Python service keeps two module-level stores:
  `fake_users_db`    : a dict mapping user id to a user record (insertion-ordered),
  `fake_messages_db` : a list of message records,
and two counters `user_id_counter`, `message_id_counter`.

We embed the dict as an insertion-ordered association list of records (each
record carries its own `id`, which is the dict key), and each request handler
as a pure function from the store state (plus the validated request payload)
to a result together with the post-call state.  `datetime.now()` is embedded
as an explicit `now : Nat` argument; timestamps are opaque naturals ordered
by `≤`, which is all the code ever does with them.
-/

namespace App

/-! ### String helpers: Python `s.lower()` and `needle in hay` -/

/-- Lower-case a string to a character list, as Python `s.lower()` does on
the ASCII inputs the service handles. -/
def strLower (s : String) : List Char :=
  s.data.map Char.toLower

/-- `startsWithChars hay needle`: `needle` is a leading segment of `hay`. -/
def startsWithChars : List Char → List Char → Bool
  | _, [] => true
  | [], _ :: _ => false
  | a :: as, n :: ns => n == a && startsWithChars as ns

/-- `containsChars hay needle`: `needle` occurs contiguously in `hay`
(Python `needle in hay`; the empty needle always matches). -/
def containsChars : List Char → List Char → Bool
  | [], needle => needle.isEmpty
  | a :: as, needle => startsWithChars (a :: as) needle || containsChars as needle

/-- Case-insensitive containment: Python `needle.lower() in hay.lower()`. -/
def strContainsCI (hay needle : String) : Bool :=
  containsChars (strLower hay) (strLower needle)

/-! ### Data model (from `app/models.py` and the stored record shapes in `app/main.py`) -/

/-- A record of `fake_users_db`: built in `create_user` with keys
`id`, `username`, `email`, `is_active`, `created_at`.  Note there is no
password field: passwords are never stored. -/
structure StoredUser where
  id : Nat
  username : String
  email : String
  is_active : Bool
  created_at : Nat
deriving DecidableEq, Repr

/-- A record of `fake_messages_db`: built in `create_message_for_user` with
keys `id`, `user_id`, `content`, `created_at`. -/
structure StoredMessage where
  id : Nat
  user_id : Nat
  content : String
  created_at : Nat
deriving DecidableEq, Repr

/-- The module-level mutable state of `app/main.py`. -/
structure AppState where
  fake_users_db : List StoredUser
  fake_messages_db : List StoredMessage
  user_id_counter : Nat
  message_id_counter : Nat
deriving DecidableEq, Repr

/-- The error kinds the handlers raise: 404 not-found, the 400 duplicate-email
rejection (the spec's ConflictError), and 422 payload validation failure. -/
inductive ApiError where
  | notFound
  | conflict
  | validationError
deriving DecidableEq, Repr

/-- Validated `UserCreate` payload (`app/models.py`): username, email, password. -/
structure UserCreate where
  username : String
  email : String
  password : String
deriving DecidableEq, Repr

/-- `UserUpdate` payload (`app/models.py`): all three fields optional. -/
structure UserUpdate where
  username : Option String
  email : Option String
  is_active : Option Bool
deriving DecidableEq, Repr

/-- `MessageCreate` payload (`app/models.py`). -/
structure MessageCreate where
  content : String
deriving DecidableEq, Repr

/-- A raw create-user body before validation: each field either absent or a
string. -/
structure UserCreatePayload where
  username : Option String
  email : Option String
  password : Option String
deriving DecidableEq, Repr

/-- Pydantic validation of `UserCreate` (`app/models.py` lines 6-20):
`username` required with `min_length=3, max_length=50`; `email` required with
no further constraint (`Field(...)` only); `password` required with
`min_length=6` (the custom validator repeats the same bound). -/
def validate_UserCreate (p : UserCreatePayload) : Except ApiError UserCreate :=
  match p.username, p.email, p.password with
  | some u, some e, some pw =>
    if 3 ≤ u.length ∧ u.length ≤ 50 then
      if 6 ≤ pw.length then Except.ok ⟨u, e, pw⟩
      else Except.error ApiError.validationError
    else Except.error ApiError.validationError
  | _, _, _ => Except.error ApiError.validationError

/-! ### The store and the seed data (`app/main.py` lines 24-33) -/

/-- The seed store: users `vasya` (id 1) and `katya` (id 2), both active;
no messages; counters 3 and 1.  The two `datetime.now()` seed timestamps are
the parameters. -/
def seedState (t1 t2 : Nat) : AppState :=
  { fake_users_db :=
      [⟨1, "vasya", "vasya@example.com", true, t1⟩,
       ⟨2, "katya", "katya@example.com", true, t2⟩],
    fake_messages_db := [],
    user_id_counter := 3,
    message_id_counter := 1 }

/-- Python dict assignment `fake_users_db[k] = v` keyed by `v.id`: overwrite
in place when the key exists, otherwise append (dicts are insertion-ordered). -/
def dbInsert (db : List StoredUser) (v : StoredUser) : List StoredUser :=
  if db.any (fun x => x.id == v.id) then
    db.map (fun x => if x.id == v.id then v else x)
  else db ++ [v]

/-! ### Request handlers (from `app/main.py`) -/

/-- `create_user` (`app/main.py` lines 185-223): scan all stored users for an
exactly equal email and raise the 400 duplicate-email error on a hit;
otherwise store a new record with id `user_id_counter`, `is_active = True`,
`created_at = now`, and increment the counter. -/
def create_user (st : AppState) (user : UserCreate) (now : Nat) :
    Except ApiError StoredUser × AppState :=
  if st.fake_users_db.any (fun existing_user => existing_user.email == user.email) then
    (Except.error ApiError.conflict, st)
  else
    let new_user : StoredUser :=
      ⟨st.user_id_counter, user.username, user.email, true, now⟩
    (Except.ok new_user,
     { st with
        fake_users_db := dbInsert st.fake_users_db new_user,
        user_id_counter := st.user_id_counter + 1 })

end App

/-! ## Claim C1 -/

namespace App

/-- C1: a create-user request whose email exactly equals a stored user's email
is rejected with the conflict error and leaves the store unchanged; a request
whose email equals no stored user's email never raises the conflict error. -/
theorem create_user_conflict_iff_dup (st : AppState) (p : UserCreate) (now : Nat) :
    ((∃ u ∈ st.fake_users_db, u.email = p.email) →
       create_user st p now = (Except.error ApiError.conflict, st)) ∧
    ((∀ u ∈ st.fake_users_db, u.email ≠ p.email) →
       (create_user st p now).1 ≠ Except.error ApiError.conflict) := by
  constructor
  · rintro ⟨u, hu, hue⟩
    have hany : st.fake_users_db.any (fun x => x.email == p.email) = true := by
      rw [List.any_eq_true]
      exact ⟨u, hu, by simpa using hue⟩
    simp [create_user, hany]
  · intro h
    have hany : st.fake_users_db.any (fun x => x.email == p.email) = false := by
      rw [List.any_eq_false]
      intro u hu
      simpa using h u hu
    simp [create_user, hany]

/-- C1 at a concrete input: over the seed store, creating a user with the
already-stored email `vasya@example.com` yields the conflict error and the
unchanged store, and a fresh email does not raise the conflict error. -/
theorem create_user_conflict_iff_dup_witness :
    create_user (seedState 0 0) ⟨"petya", "vasya@example.com", "secret1"⟩ 5 =
      (Except.error ApiError.conflict, seedState 0 0) ∧
    (create_user (seedState 0 0) ⟨"petya", "petya@example.com", "secret1"⟩ 5).1 ≠
      Except.error ApiError.conflict := by
  constructor
  · exact (create_user_conflict_iff_dup (seedState 0 0)
      ⟨"petya", "vasya@example.com", "secret1"⟩ 5).1 (by decide)
  · exact (create_user_conflict_iff_dup (seedState 0 0)
      ⟨"petya", "petya@example.com", "secret1"⟩ 5).2 (by decide)

end App

/-! ## Claim C2 -/

namespace App

/-- A store holding exactly one user, who is inactive and owns the email
`bob@example.com`; no active user holds that email. -/
def inactiveOwnerState : AppState :=
  { fake_users_db := [⟨1, "oldbob", "bob@example.com", false, 0⟩],
    fake_messages_db := [],
    user_id_counter := 2,
    message_id_counter := 1 }

/-- C2 counterexample: in a store whose only holder of `bob@example.com` is an
inactive user, a create-user request with that email is still rejected with
the conflict error — the uniqueness scan in `create_user` never looks at
`is_active`, so the claimed active-only uniqueness fails. -/
theorem create_user_inactive_email_still_conflicts :
    (∀ u ∈ inactiveOwnerState.fake_users_db, u.is_active = false) ∧
    create_user inactiveOwnerState ⟨"newbob", "bob@example.com", "secret1"⟩ 7 =
      (Except.error ApiError.conflict, inactiveOwnerState) := by
  constructor
  · decide
  · rfl

/-- C2 amended: email uniqueness at creation considers all stored entries
regardless of `is_active` — a create-user request is rejected with the
conflict error exactly when some stored user, active or inactive, holds an
exactly equal email. -/
theorem create_user_uniqueness_scans_all_entries (st : AppState) (p : UserCreate)
    (now : Nat) :
    (create_user st p now).1 = Except.error ApiError.conflict ↔
      ∃ u ∈ st.fake_users_db, u.email = p.email := by
  constructor
  · intro h
    by_cases hany : st.fake_users_db.any (fun x => x.email == p.email) = true
    · rcases List.any_eq_true.mp hany with ⟨u, hu, hue⟩
      exact ⟨u, hu, by simpa using hue⟩
    · simp [create_user, hany] at h
  · rintro ⟨u, hu, hue⟩
    have hany : st.fake_users_db.any (fun x => x.email == p.email) = true := by
      rw [List.any_eq_true]
      exact ⟨u, hu, by simpa using hue⟩
    simp [create_user, hany]

/-- C2 amended, at a concrete input: the inactive owner's email still
triggers the conflict error. -/
theorem create_user_uniqueness_scans_all_entries_witness :
    (create_user inactiveOwnerState ⟨"newbob", "bob@example.com", "secret1"⟩ 7).1 =
      Except.error ApiError.conflict :=
  (create_user_uniqueness_scans_all_entries inactiveOwnerState
    ⟨"newbob", "bob@example.com", "secret1"⟩ 7).mpr (by decide)

end App

/-! ## Claim C3 -/

namespace App

/-- C3 counterexample: a create-user payload with an empty-string email passes
validation — `email` in `UserBase` is declared `Field(...)` with no
`min_length`, so nothing rejects the empty string. -/
theorem validate_UserCreate_accepts_empty_email :
    validate_UserCreate ⟨some "abc", some "", some "secret123"⟩ =
      Except.ok ⟨"abc", "", "secret123"⟩ := by
  rfl

/-- C3 amended: the email field at creation is required — a payload missing it
is rejected with a validation error — but its content is unconstrained: any
string, the empty string included, passes when username and password satisfy
their own bounds. -/
theorem validate_UserCreate_email_required_unconstrained (u e pw : String) :
    validate_UserCreate ⟨some u, none, some pw⟩ =
      Except.error ApiError.validationError ∧
    (3 ≤ u.length → u.length ≤ 50 → 6 ≤ pw.length →
      validate_UserCreate ⟨some u, some e, some pw⟩ = Except.ok ⟨u, e, pw⟩) := by
  constructor
  · rfl
  · intro h1 h2 h3
    simp [validate_UserCreate, h1, h2, h3]

/-- C3 amended at a concrete input: the missing-email payload is rejected
while the empty-string email is accepted. -/
theorem validate_UserCreate_email_required_unconstrained_witness :
    validate_UserCreate ⟨some "abc", none, some "secret123"⟩ =
      Except.error ApiError.validationError ∧
    validate_UserCreate ⟨some "abc", some "", some "secret123"⟩ =
      Except.ok ⟨"abc", "", "secret123"⟩ :=
  ⟨(validate_UserCreate_email_required_unconstrained "abc" "" "secret123").1,
   (validate_UserCreate_email_required_unconstrained "abc" "" "secret123").2
     (by decide) (by decide) (by decide)⟩

end App

/-! ## Claim C4 -/

namespace App

/-- `get_users` (`app/main.py` lines 117-150): snapshot the store values,
filter to active users when `active_only`, filter by case-insensitive
username containment when `username_contains` is truthy (Python's
`if username_contains:` is false both for `None` and for the empty string),
then slice `[skip : skip + limit]`. -/
def get_users (st : AppState) (limit skip : Nat) (active_only : Bool)
    (username_contains : Option String) : List StoredUser :=
  let users_list := st.fake_users_db
  let users_list :=
    if active_only then users_list.filter (fun u => u.is_active) else users_list
  let users_list :=
    match username_contains with
    | some s =>
      if s = "" then users_list
      else users_list.filter (fun u => strContainsCI u.username s)
    | none => users_list
  (users_list.drop skip).take limit

/-- The spec's description of user listing, written from its words: keep the
active users when `active_only` is set, then keep the users whose username
contains the query case-insensitively when one is supplied, then skip `skip`
elements and take at most `limit`. -/
def spec_user_listing (st : AppState) (limit skip : Nat) (active_only : Bool)
    (username_contains : Option String) : List StoredUser :=
  let l1 :=
    if active_only then st.fake_users_db.filter (fun u => u.is_active)
    else st.fake_users_db
  let l2 :=
    match username_contains with
    | none => l1
    | some s => l1.filter (fun u => strContainsCI u.username s)
  (l2.drop skip).take limit

/-- A concrete store of twelve users for the pagination scenario. -/
def twelveUserState : AppState :=
  { fake_users_db :=
      (List.range 12).map (fun i => ⟨i + 1, "user", "user@example.com", true, 0⟩),
    fake_messages_db := [],
    user_id_counter := 13,
    message_id_counter := 1 }

/-- C4: user listing filters by activity, then by case-insensitive username
containment, then windows by skip-then-take-limit; and over any store of 12
users, `limit = 5, skip = 10` returns exactly 2 results.  The query layer
guarantees `limit ∈ [1, 100]` and a supplied `username_contains` of length
≥ 1, which the hypotheses record. -/
theorem get_users_filters_then_paginates (st : AppState) (limit skip : Nat)
    (ao : Bool) (uc : Option String)
    (_hl1 : 1 ≤ limit) (_hl2 : limit ≤ 100)
    (huc : ∀ s, uc = some s → s ≠ "") :
    get_users st limit skip ao uc = spec_user_listing st limit skip ao uc ∧
    (∀ st12 : AppState, st12.fake_users_db.length = 12 →
      (get_users st12 5 10 false none).length = 2) := by
  constructor
  · unfold get_users spec_user_listing
    cases uc with
    | none => rfl
    | some s =>
      have hs : s ≠ "" := huc s rfl
      simp [hs]
  · intro st12 h12
    unfold get_users
    simp [List.length_take, List.length_drop, h12]

/-- C4 at concrete inputs: over the seed store the listing equals the spec's
pipeline, and over a concrete 12-user store `limit = 5, skip = 10` returns
exactly 2 users. -/
theorem get_users_filters_then_paginates_witness :
    get_users (seedState 0 0) 10 0 false none =
      spec_user_listing (seedState 0 0) 10 0 false none ∧
    (get_users twelveUserState 5 10 false none).length = 2 :=
  ⟨(get_users_filters_then_paginates (seedState 0 0) 10 0 false none
      (by decide) (by decide) (fun s h => by cases h)).1,
   (get_users_filters_then_paginates (seedState 0 0) 10 0 false none
      (by decide) (by decide) (fun s h => by cases h)).2 twelveUserState (by decide)⟩

end App

/-! ## Claim C5 -/

namespace App

/-- `get_messages` (`app/main.py` lines 153-180): copy the message list,
filter by `user_id` when truthy (Python `if user_id:` is false for `None`
and for `0`), sort the copy by `created_at` — descending when
`sort_by_date == "desc"`, ascending otherwise — and return the first `limit`
elements.  Python's `list.sort` is stable, which `List.mergeSort` matches;
only the copy is sorted, so the stored sequence is returned unchanged in the
second component. -/
def get_messages (st : AppState) (user_id : Option Nat) (limit : Nat)
    (sort_by_date : String) : List StoredMessage × AppState :=
  let messages := st.fake_messages_db
  let messages : List StoredMessage :=
    match user_id with
    | some uid =>
      if uid ≠ 0 then messages.filter (fun m => m.user_id == uid) else messages
    | none => messages
  let messages :=
    if sort_by_date = "desc" then
      messages.mergeSort (fun a b => decide (b.created_at ≤ a.created_at))
    else
      messages.mergeSort (fun a b => decide (a.created_at ≤ b.created_at))
  (messages.take limit, st)

/-- The spec's message filter: exactly the messages whose `user_id` equals
the supplied filter, all messages when none is supplied. -/
def spec_message_filter (st : AppState) (user_id : Option Nat) : List StoredMessage :=
  match user_id with
  | none => st.fake_messages_db
  | some uid => st.fake_messages_db.filter (fun m => m.user_id == uid)

/-- Merge-sorting by a boolean comparison that is transitive and total yields
a pairwise-ordered list. -/
theorem mergeSort_pairwise (l : List StoredMessage)
    (le : StoredMessage → StoredMessage → Bool)
    (htrans : ∀ a b c, le a b → le b c → le a c)
    (htotal : ∀ a b, le a b || le b a) :
    (l.mergeSort le).Pairwise (fun a b => le a b = true) :=
  @List.sorted_mergeSort StoredMessage le htrans htotal l

/-- Under the query-layer guarantee that a supplied `user_id` is positive,
`get_messages` is the merge-sorted spec filter truncated to `limit`, with the
store returned unchanged. -/
theorem get_messages_eq_sorted_filter (st : AppState) (uid : Option Nat)
    (limit : Nat) (sb : String) (huid : ∀ i, uid = some i → 1 ≤ i) :
    get_messages st uid limit sb =
      ((if sb = "desc" then
          (spec_message_filter st uid).mergeSort
            (fun a b => decide (b.created_at ≤ a.created_at))
        else
          (spec_message_filter st uid).mergeSort
            (fun a b => decide (a.created_at ≤ b.created_at))).take limit, st) := by
  cases uid with
  | none => rfl
  | some i =>
    have hi : 1 ≤ i := huid i rfl
    have hne : i ≠ 0 := by omega
    simp [get_messages, spec_message_filter, hne]

/-- C5: message listing keeps exactly the messages matching the `user_id`
filter, presents them as a sorted permutation — by `created_at` descending
for `"desc"`, ascending for `"asc"` — truncated to the first `limit`
elements, and leaves the stored message sequence unchanged.  The query layer
guarantees a supplied `user_id ≥ 1`, `limit ∈ [1, 100]` and
`sort_by_date ∈ {asc, desc}`. -/
theorem get_messages_sorted_window (st : AppState) (uid : Option Nat)
    (limit : Nat) (sb : String)
    (huid : ∀ i, uid = some i → 1 ≤ i)
    (_hl1 : 1 ≤ limit) (_hl2 : limit ≤ 100)
    (hsb : sb = "asc" ∨ sb = "desc") :
    ∃ sortedMsgs : List StoredMessage,
      sortedMsgs.Perm (spec_message_filter st uid) ∧
      (sb = "desc" → sortedMsgs.Pairwise (fun a b => b.created_at ≤ a.created_at)) ∧
      (sb = "asc" → sortedMsgs.Pairwise (fun a b => a.created_at ≤ b.created_at)) ∧
      (get_messages st uid limit sb).1 = sortedMsgs.take limit ∧
      (get_messages st uid limit sb).2 = st := by
  have hkey := get_messages_eq_sorted_filter st uid limit sb huid
  rcases hsb with hs | hs
  · subst hs
    have hne : ("asc" : String) ≠ "desc" := by decide
    refine ⟨(spec_message_filter st uid).mergeSort
      (fun a b => decide (a.created_at ≤ b.created_at)), ?_, ?_, ?_, ?_, ?_⟩
    · exact List.mergeSort_perm _ _
    · intro h
      exact absurd h hne
    · intro _
      have h := mergeSort_pairwise (spec_message_filter st uid)
        (fun a b => decide (a.created_at ≤ b.created_at))
        (by intro a b c hab hbc; simp at hab hbc ⊢; omega)
        (by intro a b; simpa using Nat.le_total a.created_at b.created_at)
      exact h.imp (by intro a b hab; simpa using hab)
    · rw [hkey]
      simp [hne]
    · rw [hkey]
  · subst hs
    refine ⟨(spec_message_filter st uid).mergeSort
      (fun a b => decide (b.created_at ≤ a.created_at)), ?_, ?_, ?_, ?_, ?_⟩
    · exact List.mergeSort_perm _ _
    · intro _
      have h := mergeSort_pairwise (spec_message_filter st uid)
        (fun a b => decide (b.created_at ≤ a.created_at))
        (by intro a b c hab hbc; simp at hab hbc ⊢; omega)
        (by intro a b; simpa using Nat.le_total b.created_at a.created_at)
      exact h.imp (by intro a b hab; simpa using hab)
    · intro h
      exact absurd h (by decide)
    · rw [hkey]
      simp
    · rw [hkey]

/-- C5 at a concrete input: the sorted-window description holds over the seed
store with no filter, `limit = 20` and the default descending sort. -/
theorem get_messages_sorted_window_witness :
    ∃ sortedMsgs : List StoredMessage,
      sortedMsgs.Perm (spec_message_filter (seedState 0 0) none) ∧
      ("desc" = "desc" →
        sortedMsgs.Pairwise (fun a b => b.created_at ≤ a.created_at)) ∧
      ("desc" = "asc" →
        sortedMsgs.Pairwise (fun a b => a.created_at ≤ b.created_at)) ∧
      (get_messages (seedState 0 0) none 20 "desc").1 = sortedMsgs.take 20 ∧
      (get_messages (seedState 0 0) none 20 "desc").2 = seedState 0 0 :=
  get_messages_sorted_window (seedState 0 0) none 20 "desc"
    (fun i h => by cases h) (by decide) (by decide) (Or.inr rfl)

end App

/-! ## Claim C6 -/

namespace App

/-- `search_users` (`app/main.py` lines 328-352): iterate the store in
insertion order, append each user whose username or email contains `q`
case-insensitively and who is active unless `include_inactive` is set, then
return the first `limit` matches. -/
def search_users (st : AppState) (q : String) (limit : Nat)
    (include_inactive : Bool) : List StoredUser :=
  let results := st.fake_users_db.foldl
    (fun results user =>
      if strContainsCI user.username q || strContainsCI user.email q then
        if include_inactive || user.is_active then results ++ [user] else results
      else results)
    []
  results.take limit

/-- The append-accumulating search loop is the filter by the conjunction of
its two nested conditions. -/
theorem foldl_append_eq_filter (p cond2 : StoredUser → Bool) :
    ∀ (l acc : List StoredUser),
      l.foldl (fun results user =>
        if p user then
          if cond2 user then results ++ [user] else results
        else results) acc
      = acc ++ l.filter (fun u => p u && cond2 u)
  | [], acc => by simp
  | x :: xs, acc => by
    simp only [List.foldl_cons, List.filter_cons]
    by_cases hp : p x
    · by_cases hc : cond2 x
      · rw [if_pos hp, if_pos hc, foldl_append_eq_filter p cond2 xs (acc ++ [x])]
        simp [hp, hc]
      · rw [if_pos hp, if_neg hc, foldl_append_eq_filter p cond2 xs acc]
        simp [hp, hc]
    · rw [if_neg hp, foldl_append_eq_filter p cond2 xs acc]
      simp [hp]

/-- C6: search returns exactly the stored users, in insertion order, whose
username or email contains `q` case-insensitively — excluding inactive users
unless `include_inactive` — truncated to the first `limit`; and over the seed
store, `q = "vasya"` with `include_inactive = false` returns exactly the seed
user `vasya`.  The query layer guarantees `q` of length ≥ 2 and
`limit ∈ [1, 50]`. -/
theorem search_users_filter_then_take (st : AppState) (q : String)
    (limit : Nat) (incl : Bool)
    (_hq : 2 ≤ q.length) (_hl1 : 1 ≤ limit) (_hl2 : limit ≤ 50) :
    search_users st q limit incl =
      (st.fake_users_db.filter
        (fun u => (strContainsCI u.username q || strContainsCI u.email q) &&
          (incl || u.is_active))).take limit ∧
    (∀ t1 t2 : Nat, search_users (seedState t1 t2) "vasya" 10 false =
      [⟨1, "vasya", "vasya@example.com", true, t1⟩]) := by
  constructor
  · unfold search_users
    rw [foldl_append_eq_filter
      (fun u => strContainsCI u.username q || strContainsCI u.email q)
      (fun u => incl || u.is_active) st.fake_users_db []]
    simp
  · intro t1 t2
    rfl

/-- C6 at concrete inputs: the filter-then-take description of search over
the seed store, and the seed scenario returning exactly the user `vasya`. -/
theorem search_users_filter_then_take_witness :
    search_users (seedState 0 0) "vasya" 10 false =
      ((seedState 0 0).fake_users_db.filter
        (fun u => (strContainsCI u.username "vasya" ||
            strContainsCI u.email "vasya") && (false || u.is_active))).take 10 ∧
    search_users (seedState 0 0) "vasya" 10 false =
      [⟨1, "vasya", "vasya@example.com", true, 0⟩] :=
  ⟨(search_users_filter_then_take (seedState 0 0) "vasya" 10 false
      (by decide) (by decide) (by decide)).1,
   (search_users_filter_then_take (seedState 0 0) "vasya" 10 false
      (by decide) (by decide) (by decide)).2 0 0⟩

end App

/-! ## Claims C7 and C8: the update handlers -/

namespace App

/-- The field-by-field application of a PATCH body
(`app/main.py` lines 310-320): each of `username`, `email`, `is_active` is
written only when the payload carries it. -/
def applyUserUpdate (u : StoredUser) (uu : UserUpdate) : StoredUser :=
  let u1 :=
    match uu.username with
    | some un => { u with username := un }
    | none => u
  let u2 :=
    match uu.email with
    | some e => { u1 with email := e }
    | none => u1
  match uu.is_active with
  | some b => { u2 with is_active := b }
  | none => u2

/-- `update_user_partial` (`app/main.py` lines 292-323): 404 when the id is
absent; otherwise mutate the stored record in place, writing only the payload
fields that are not `None`, and return it. -/
def update_user_partial (st : AppState) (user_id : Nat)
    (user_update : UserUpdate) : Except ApiError StoredUser × AppState :=
  match st.fake_users_db.find? (fun u => u.id == user_id) with
  | none => (Except.error ApiError.notFound, st)
  | some user_data =>
    let u2 := applyUserUpdate user_data user_update
    (Except.ok u2,
     { st with
        fake_users_db :=
          st.fake_users_db.map (fun u => if u.id == user_id then u2 else u) })

/-- `update_user_full` (`app/main.py` lines 265-289): 404 when the id is
absent; otherwise overwrite exactly `username` and `email` from the payload
(the password is deliberately not stored) and return the record. -/
def update_user_full (st : AppState) (user_id : Nat)
    (user_update : UserCreate) : Except ApiError StoredUser × AppState :=
  match st.fake_users_db.find? (fun u => u.id == user_id) with
  | none => (Except.error ApiError.notFound, st)
  | some user_data =>
    let u2 :=
      { user_data with
          username := user_update.username, email := user_update.email }
    (Except.ok u2,
     { st with
        fake_users_db :=
          st.fake_users_db.map (fun u => if u.id == user_id then u2 else u) })

/-- Field accounting for `applyUserUpdate`: ids and creation timestamps pass
through untouched, and each updatable field is the payload's value when
present, the stored value otherwise. -/
theorem applyUserUpdate_fields (u : StoredUser) (uu : UserUpdate) :
    (applyUserUpdate u uu).id = u.id ∧
    (applyUserUpdate u uu).created_at = u.created_at ∧
    (applyUserUpdate u uu).username = uu.username.getD u.username ∧
    (applyUserUpdate u uu).email = uu.email.getD u.email ∧
    (applyUserUpdate u uu).is_active = uu.is_active.getD u.is_active := by
  rcases uu with ⟨un, e, b⟩
  cases un <;> cases e <;> cases b <;> exact ⟨rfl, rfl, rfl, rfl, rfl⟩

/-- C7: for a stored id, partial update succeeds and applies exactly the
payload fields that are present — every omitted field, as well as `id` and
`created_at`, keeps its stored value; in particular a payload carrying only
`is_active = false` flips only that flag. -/
theorem update_user_partial_applies_only_present_fields (st : AppState)
    (uid : Nat) (u0 : StoredUser)
    (h : st.fake_users_db.find? (fun u => u.id == uid) = some u0)
    (uu : UserUpdate) :
    ∃ u2 : StoredUser,
      ( update_user_partial st uid uu).1 = Except.ok u2 ∧
      u2.id = u0.id ∧
      u2.created_at = u0.created_at ∧
      (uu.username = none → u2.username = u0.username) ∧
      (uu.email = none → u2.email = u0.email) ∧
      (uu.is_active = none → u2.is_active = u0.is_active) ∧
      (∀ un, uu.username = some un → u2.username = un) ∧
      (∀ e, uu.email = some e → u2.email = e) ∧
      (∀ b, uu.is_active = some b → u2.is_active = b) := by
  obtain ⟨hid, hca, hun, hem, hia⟩ := applyUserUpdate_fields u0 uu
  refine ⟨applyUserUpdate u0 uu, ?_, hid, hca, ?_, ?_, ?_, ?_, ?_, ?_⟩
  · simp only [ update_user_partial, h]
  · intro hnone
    rw [hun, hnone, Option.getD_none]
  · intro hnone
    rw [hem, hnone, Option.getD_none]
  · intro hnone
    rw [hia, hnone, Option.getD_none]
  · intro un hsome
    rw [hun, hsome, Option.getD_some]
  · intro e hsome
    rw [hem, hsome, Option.getD_some]
  · intro b hsome
    rw [hia, hsome, Option.getD_some]

/-- C7 at a concrete input: patching seed user 1 with only
`is_active = false` returns the record with username, email, id and
`created_at` unchanged and `is_active` now false. -/
theorem update_user_partial_applies_only_present_fields_witness :
    ∃ u2 : StoredUser,
      ( update_user_partial (seedState 0 0) 1 ⟨none, none, some false⟩).1 =
        Except.ok u2 ∧
      u2.id = 1 ∧ u2.created_at = 0 ∧ u2.username = "vasya" ∧
      u2.email = "vasya@example.com" ∧ u2.is_active = false := by
  obtain ⟨u2, h1, h2, h3, h4, h5, h6, h7, h8, h9⟩ :=
    update_user_partial_applies_only_present_fields (seedState 0 0) 1
      ⟨1, "vasya", "vasya@example.com", true, 0⟩ rfl ⟨none, none, some false⟩
  exact ⟨u2, h1, h2, h3, h4 rfl, h5 rfl, h9 false rfl⟩

/-- C8: full update on a stored id overwrites exactly `username` and `email`
from the payload, leaving `id`, `created_at` and `is_active` unchanged; the
result never depends on the password, which has no stored field; and an
absent id yields the not-found error with the store unchanged. -/
theorem update_user_full_overwrites_username_email (st : AppState) (uid : Nat)
    (uc : UserCreate) :
    (∀ u0, st.fake_users_db.find? (fun u => u.id == uid) = some u0 →
      ( update_user_full st uid uc).1 =
        Except.ok ⟨u0.id, uc.username, uc.email, u0.is_active, u0.created_at⟩) ∧
    (∀ pw1 pw2 : String,
      update_user_full st uid ⟨uc.username, uc.email, pw1⟩ =
        update_user_full st uid ⟨uc.username, uc.email, pw2⟩) ∧
    (st.fake_users_db.find? (fun u => u.id == uid) = none →
      update_user_full st uid uc = (Except.error ApiError.notFound, st)) := by
  refine ⟨?_, ?_, ?_⟩
  · intro u0 h
    simp only [update_user_full, h]
  · intro pw1 pw2
    rfl
  · intro h
    simp only [update_user_full, h]

/-- C8 at a concrete input: replacing seed user 2 rewrites username and email
only, and id 99 is rejected as not found with the store unchanged. -/
theorem update_user_full_overwrites_username_email_witness :
    ( update_user_full (seedState 0 0) 2 ⟨"katya2", "k2@example.com", "secret1"⟩).1 =
      Except.ok ⟨2, "katya2", "k2@example.com", true, 0⟩ ∧
    update_user_full (seedState 0 0) 99 ⟨"katya2", "k2@example.com", "secret1"⟩ =
      (Except.error ApiError.notFound, seedState 0 0) :=
  ⟨(update_user_full_overwrites_username_email (seedState 0 0) 2
      ⟨"katya2", "k2@example.com", "secret1"⟩).1
      ⟨2, "katya", "katya@example.com", true, 0⟩ rfl,
   (update_user_full_overwrites_username_email (seedState 0 0) 99
      ⟨"katya2", "k2@example.com", "secret1"⟩).2.2 rfl⟩

end App

/-! ## Claim C10 -/

namespace App

/-- C10: neither update handler checks email uniqueness — on any stored id
both updates succeed for every payload, never raising the conflict error —
and over the seed store a full update can make users 1 and 2 share the email
`vasya@example.com`. -/
theorem updates_never_check_email_uniqueness (st : AppState) (uid : Nat) :
    (∀ uc : UserCreate, ∀ u0,
      st.fake_users_db.find? (fun u => u.id == uid) = some u0 →
      ∃ u2, ( update_user_full st uid uc).1 = Except.ok u2) ∧
    (∀ uu : UserUpdate, ∀ u0,
      st.fake_users_db.find? (fun u => u.id == uid) = some u0 →
      ∃ u2, ( update_user_partial st uid uu).1 = Except.ok u2) ∧
    (∀ t1 t2 : Nat,
      (( update_user_full (seedState t1 t2) 2
          ⟨"katya", "vasya@example.com", "secret1"⟩).2).fake_users_db.map
        (fun u => u.email) = ["vasya@example.com", "vasya@example.com"]) := by
  refine ⟨?_, ?_, ?_⟩
  · intro uc u0 h
    refine ⟨⟨u0.id, uc.username, uc.email, u0.is_active, u0.created_at⟩, ?_⟩
    simp only [update_user_full, h]
  · intro uu u0 h
    refine ⟨applyUserUpdate u0 uu, ?_⟩
    simp only [ update_user_partial, h]
  · intro t1 t2
    rfl

/-- C10 at a concrete input: full-updating seed user 2 to user 1's email
succeeds and leaves both stored users with `vasya@example.com`. -/
theorem updates_never_check_email_uniqueness_witness :
    (∃ u2, ( update_user_full (seedState 0 0) 2
      ⟨"katya", "vasya@example.com", "secret1"⟩).1 = Except.ok u2) ∧
    (( update_user_full (seedState 0 0) 2
        ⟨"katya", "vasya@example.com", "secret1"⟩).2).fake_users_db.map
      (fun u => u.email) = ["vasya@example.com", "vasya@example.com"] :=
  ⟨(updates_never_check_email_uniqueness (seedState 0 0) 2).1
      ⟨"katya", "vasya@example.com", "secret1"⟩
      ⟨2, "katya", "katya@example.com", true, 0⟩ rfl,
   (updates_never_check_email_uniqueness (seedState 0 0) 2).2.2 0 0⟩

end App

/-! ## Claim C9: id counters across whole operation traces -/

namespace App

/-- `delete_user` (`app/main.py` lines 92-112): 404 when the id is absent,
otherwise remove the entry (`del fake_users_db[user_id]`) and confirm. -/
def delete_user (st : AppState) (user_id : Nat) : Except ApiError Unit × AppState :=
  if st.fake_users_db.any (fun u => u.id == user_id) then
    (Except.ok (),
     { st with
        fake_users_db := st.fake_users_db.filter (fun u => ! (u.id == user_id)) })
  else (Except.error ApiError.notFound, st)

/-- `create_message_for_user` (`app/main.py` lines 226-260): 404 when the
user id is absent; otherwise append a message with id `message_id_counter`,
`created_at = now`, and increment the counter. -/
def create_message_for_user (st : AppState) (user_id : Nat)
    (message : MessageCreate) (now : Nat) :
    Except ApiError StoredMessage × AppState :=
  if st.fake_users_db.any (fun u => u.id == user_id) then
    let new_message : StoredMessage :=
      ⟨st.message_id_counter, user_id, message.content, now⟩
    (Except.ok new_message,
     { st with
        fake_messages_db := st.fake_messages_db ++ [new_message],
        message_id_counter := st.message_id_counter + 1 })
  else (Except.error ApiError.notFound, st)

/-- One store-mutating request, with the `datetime.now()` values of the
creating requests made explicit. -/
inductive Op where
  | opCreateUser (p : UserCreate) (now : Nat)
  | opDeleteUser (uid : Nat)
  | opCreateMessage (uid : Nat) (mc : MessageCreate) (now : Nat)
  | opUpdateFull (uid : Nat) (p : UserCreate)
  | opUpdatePatch (uid : Nat) (uu : UserUpdate)

/-- The store together with ghost history: every user id and every message id
the store has ever assigned (including the seed ids).  The ghost lists never
shrink, so "an id assigned before" is expressible. -/
structure GhostState where
  app : AppState
  userIdsEver : List Nat
  messageIdsEver : List Nat

/-- Execute one request against the store, recording each freshly assigned id
in the ghost history. -/
def runOp (g : GhostState) (op : Op) : GhostState :=
  match op with
  | .opCreateUser p now =>
    match create_user g.app p now with
    | (Except.ok u, st2) => ⟨st2, g.userIdsEver ++ [u.id], g.messageIdsEver⟩
    | (Except.error _, st2) => ⟨st2, g.userIdsEver, g.messageIdsEver⟩
  | .opDeleteUser uid =>
    ⟨(delete_user g.app uid).2, g.userIdsEver, g.messageIdsEver⟩
  | .opCreateMessage uid mc now =>
    match create_message_for_user g.app uid mc now with
    | (Except.ok m, st2) => ⟨st2, g.userIdsEver, g.messageIdsEver ++ [m.id]⟩
    | (Except.error _, st2) => ⟨st2, g.userIdsEver, g.messageIdsEver⟩
  | .opUpdateFull uid p =>
    ⟨( update_user_full g.app uid p).2, g.userIdsEver, g.messageIdsEver⟩
  | .opUpdatePatch uid uu =>
    ⟨( update_user_partial g.app uid uu).2, g.userIdsEver, g.messageIdsEver⟩

/-- Execute a trace of requests from left to right. -/
def runOps (g : GhostState) (ops : List Op) : GhostState :=
  ops.foldl runOp g

/-- The seed store with its ghost history: ids 1 and 2 were assigned to the
seed users, no message id has been assigned. -/
def seedGhost (t1 t2 : Nat) : GhostState :=
  ⟨seedState t1 t2, [1, 2], []⟩

/-- The counter/id-history invariant: every assigned id lies below the
corresponding counter, assigned ids are pairwise distinct, and the ids in
each collection come from the assigned history and are pairwise distinct. -/
structure StoreInv (g : GhostState) : Prop where
  userEverBound : ∀ i ∈ g.userIdsEver, i < g.app.user_id_counter
  userEverNodup : g.userIdsEver.Nodup
  userMem : ∀ i ∈ g.app.fake_users_db.map (fun u => u.id), i ∈ g.userIdsEver
  userNodup : (g.app.fake_users_db.map (fun u => u.id)).Nodup
  msgEverBound : ∀ i ∈ g.messageIdsEver, i < g.app.message_id_counter
  msgEverNodup : g.messageIdsEver.Nodup
  msgMem : ∀ i ∈ g.app.fake_messages_db.map (fun m => m.id), i ∈ g.messageIdsEver
  msgNodup : (g.app.fake_messages_db.map (fun m => m.id)).Nodup

/-- Under the invariant no stored user carries the value of the user-id
counter, so the next user id is fresh. -/
theorem no_user_has_counter_id (g : GhostState) (h : StoreInv g) :
    g.app.fake_users_db.any (fun u => u.id == g.app.user_id_counter) = false := by
  rw [List.any_eq_false]
  intro u hu
  have h1 : u.id ∈ g.userIdsEver :=
    h.userMem u.id (List.mem_map_of_mem _ hu)
  have h2 : u.id < g.app.user_id_counter := h.userEverBound _ h1
  simp only [beq_iff_eq]
  omega

/-- On a fresh key, the dict assignment is an append. -/
theorem dbInsert_fresh (db : List StoredUser) (v : StoredUser)
    (h : db.any (fun x => x.id == v.id) = false) : dbInsert db v = db ++ [v] := by
  unfold dbInsert
  rw [h]
  rfl

/-- Rewriting the matching entry of the store with a record of the same id
leaves the id sequence untouched. -/
theorem map_update_id_eq (db : List StoredUser) (uid : Nat) (u2 : StoredUser)
    (hid : u2.id = uid) :
    (db.map (fun u => if u.id == uid then u2 else u)).map (fun u => u.id) =
      db.map (fun u => u.id) := by
  induction db with
  | nil => rfl
  | cons x xs ih =>
    simp only [List.map_cons, ih]
    by_cases hx : (x.id == uid) = true
    · have hx2 : x.id = uid := by simpa using hx
      simp [hx, hid, hx2]
    · simp [hx]

/-- Inserting the fresh user produced by a successful `create_user` preserves
the invariant. -/
theorem storeInv_insert_user (g : GhostState) (h : StoreInv g)
    (p : UserCreate) (now : Nat) :
    StoreInv
      ⟨{ g.app with
          fake_users_db := g.app.fake_users_db ++
            [⟨g.app.user_id_counter, p.username, p.email, true, now⟩],
          user_id_counter := g.app.user_id_counter + 1 },
        g.userIdsEver ++ [g.app.user_id_counter], g.messageIdsEver⟩ := by
  obtain ⟨hub, hun, hum, hud, hmb, hmn, hmm2, hmd⟩ := h
  refine ⟨?_, ?_, ?_, ?_, hmb, hmn, hmm2, hmd⟩
  · intro i hi
    rcases List.mem_append.mp hi with hi | hi
    · exact Nat.lt_succ_of_lt (hub i hi)
    · simp only [List.mem_singleton] at hi
      show i < g.app.user_id_counter + 1
      omega
  · rw [List.nodup_append]
    refine ⟨hun, List.nodup_singleton _, ?_⟩
    intro i hi hi2
    simp only [List.mem_singleton] at hi2
    subst hi2
    exact absurd (hub _ hi) (by omega)
  · intro i hi
    rw [List.map_append] at hi
    rcases List.mem_append.mp hi with hi | hi
    · exact List.mem_append_left _ (hum i hi)
    · simp only [List.map_cons, List.map_nil, List.mem_singleton] at hi
      subst hi
      exact List.mem_append_right _ (by simp)
  · rw [List.map_append, List.nodup_append]
    refine ⟨hud, by simp, ?_⟩
    intro i hi hi2
    simp only [List.map_cons, List.map_nil, List.mem_singleton] at hi2
    subst hi2
    exact absurd (hub _ (hum _ hi)) (by omega)

/-- Appending the fresh message produced by a successful
`create_message_for_user` preserves the invariant. -/
theorem storeInv_insert_message (g : GhostState) (h : StoreInv g)
    (uid : Nat) (mc : MessageCreate) (now : Nat) :
    StoreInv
      ⟨{ g.app with
          fake_messages_db := g.app.fake_messages_db ++
            [⟨g.app.message_id_counter, uid, mc.content, now⟩],
          message_id_counter := g.app.message_id_counter + 1 },
        g.userIdsEver, g.messageIdsEver ++ [g.app.message_id_counter]⟩ := by
  obtain ⟨hub, hun, hum, hud, hmb, hmn, hmm2, hmd⟩ := h
  refine ⟨hub, hun, hum, hud, ?_, ?_, ?_, ?_⟩
  · intro i hi
    rcases List.mem_append.mp hi with hi | hi
    · exact Nat.lt_succ_of_lt (hmb i hi)
    · simp only [List.mem_singleton] at hi
      show i < g.app.message_id_counter + 1
      omega
  · rw [List.nodup_append]
    refine ⟨hmn, List.nodup_singleton _, ?_⟩
    intro i hi hi2
    simp only [List.mem_singleton] at hi2
    subst hi2
    exact absurd (hmb _ hi) (by omega)
  · intro i hi
    rw [List.map_append] at hi
    rcases List.mem_append.mp hi with hi | hi
    · exact List.mem_append_left _ (hmm2 i hi)
    · simp only [List.map_cons, List.map_nil, List.mem_singleton] at hi
      subst hi
      exact List.mem_append_right _ (by simp)
  · rw [List.map_append, List.nodup_append]
    refine ⟨hmd, by simp, ?_⟩
    intro i hi hi2
    simp only [List.map_cons, List.map_nil, List.mem_singleton] at hi2
    subst hi2
    exact absurd (hmb _ (hmm2 _ hi)) (by omega)

/-- Removing users preserves the invariant. -/
theorem storeInv_delete_user (g : GhostState) (h : StoreInv g) (uid : Nat) :
    StoreInv
      ⟨{ g.app with
          fake_users_db := g.app.fake_users_db.filter (fun u => ! (u.id == uid)) },
        g.userIdsEver, g.messageIdsEver⟩ := by
  obtain ⟨hub, hun, hum, hud, hmb, hmn, hmm2, hmd⟩ := h
  have hsub :
      List.Sublist
        ((g.app.fake_users_db.filter (fun u => ! (u.id == uid))).map (fun u => u.id))
        (g.app.fake_users_db.map (fun u => u.id)) :=
    (List.filter_sublist _).map _
  exact ⟨hub, hun, fun i hi => hum i (hsub.subset hi), hud.sublist hsub,
    hmb, hmn, hmm2, hmd⟩

/-- Replacing user records without touching their ids preserves the
invariant. -/
theorem storeInv_rewrite_users (g : GhostState) (h : StoreInv g)
    (db2 : List StoredUser)
    (heq : db2.map (fun u => u.id) = g.app.fake_users_db.map (fun u => u.id)) :
    StoreInv ⟨{ g.app with fake_users_db := db2 },
      g.userIdsEver, g.messageIdsEver⟩ := by
  obtain ⟨hub, hun, hum, hud, hmb, hmn, hmm2, hmd⟩ := h
  refine ⟨hub, hun, ?_, ?_, hmb, hmn, hmm2, hmd⟩
  · intro i hi
    rw [heq] at hi
    exact hum i hi
  · rw [heq]
    exact hud

/-- Every single request preserves the invariant. -/
theorem runOp_preserves (g : GhostState) (op : Op) (h : StoreInv g) :
    StoreInv (runOp g op) := by
  cases op with
  | opCreateUser p now =>
    by_cases hc : g.app.fake_users_db.any (fun x => x.email == p.email) = true
    · simp only [runOp, create_user, if_pos hc]
      exact h
    · have hfresh2 : g.app.fake_users_db.any
        (fun x => x.id ==
          (⟨g.app.user_id_counter, p.username, p.email, true, now⟩ : StoredUser).id) =
          false :=
        no_user_has_counter_id g h
      simp only [runOp, create_user, if_neg hc]
      rw [dbInsert_fresh _ _ hfresh2]
      exact storeInv_insert_user g h p now
  | opDeleteUser uid =>
    by_cases hc : g.app.fake_users_db.any (fun u => u.id == uid) = true
    · simp only [runOp, delete_user, if_pos hc]
      exact storeInv_delete_user g h uid
    · simp only [runOp, delete_user, if_neg hc]
      exact h
  | opCreateMessage uid mc now =>
    by_cases hc : g.app.fake_users_db.any (fun u => u.id == uid) = true
    · simp only [runOp, create_message_for_user, if_pos hc]
      exact storeInv_insert_message g h uid mc now
    · simp only [runOp, create_message_for_user, if_neg hc]
      exact h
  | opUpdateFull uid p =>
    cases hf : g.app.fake_users_db.find? (fun u => u.id == uid) with
    | none =>
      simp only [runOp, update_user_full, hf]
      exact h
    | some u0 =>
      have hid : u0.id = uid := by simpa using List.find?_some hf
      simp only [runOp, update_user_full, hf]
      exact storeInv_rewrite_users g h _ (map_update_id_eq _ _ _ hid)
  | opUpdatePatch uid uu =>
    cases hf : g.app.fake_users_db.find? (fun u => u.id == uid) with
    | none =>
      simp only [runOp, update_user_partial, hf]
      exact h
    | some u0 =>
      have hid : (applyUserUpdate u0 uu).id = uid :=
        (applyUserUpdate_fields u0 uu).1.trans (by simpa using List.find?_some hf)
      simp only [runOp, update_user_partial, hf]
      exact storeInv_rewrite_users g h _ (map_update_id_eq _ _ _ hid)

/-- The seed store satisfies the invariant. -/
theorem storeInv_seed (t1 t2 : Nat) : StoreInv (seedGhost t1 t2) := by
  refine ⟨?_, ?_, ?_, ?_, ?_, ?_, ?_, ?_⟩
  · intro i hi
    simp only [seedGhost, List.mem_cons, List.not_mem_nil, or_false] at hi
    show i < 3
    omega
  · show ([1, 2] : List Nat).Nodup
    decide
  · intro i hi
    show i ∈ [1, 2]
    simpa [seedGhost, seedState] using hi
  · show (((seedState t1 t2).fake_users_db).map (fun u => u.id)).Nodup
    show ([1, 2] : List Nat).Nodup
    decide
  · intro i hi
    simp [seedGhost] at hi
  · show ([] : List Nat).Nodup
    decide
  · intro i hi
    simp [seedGhost, seedState] at hi
  · show (([] : List StoredMessage).map (fun m => m.id)).Nodup
    decide

/-- Whole traces preserve the invariant. -/
theorem runOps_preserves (ops : List Op) (g : GhostState) (h : StoreInv g) :
    StoreInv (runOps g ops) := by
  induction ops generalizing g with
  | nil => exact h
  | cons op ops ih => exact ih (runOp g op) (runOp_preserves g op h)

/-- Inversion of a successful `create_user`: the new record takes the current
counter as id, and the counter is bumped by exactly one. -/
theorem create_user_ok_inv (st : AppState) (p : UserCreate) (now : Nat)
    (u : StoredUser) (st2 : AppState)
    (h : create_user st p now = (Except.ok u, st2)) :
    u.id = st.user_id_counter ∧ st2.user_id_counter = st.user_id_counter + 1 := by
  unfold create_user at h
  by_cases hc : st.fake_users_db.any (fun x => x.email == p.email) = true
  · rw [if_pos hc] at h
    injection h with h1 h2
    cases h1
  · rw [if_neg hc] at h
    injection h with h1 h2
    injection h1 with h1
    subst h1
    subst h2
    exact ⟨rfl, rfl⟩

/-- Inversion of a successful `create_message_for_user`: the new record takes
the current counter as id, and the counter is bumped by exactly one. -/
theorem create_message_ok_inv (st : AppState) (uid : Nat) (mc : MessageCreate)
    (now : Nat) (m : StoredMessage) (st2 : AppState)
    (h : create_message_for_user st uid mc now = (Except.ok m, st2)) :
    m.id = st.message_id_counter ∧
    st2.message_id_counter = st.message_id_counter + 1 := by
  unfold create_message_for_user at h
  by_cases hc : st.fake_users_db.any (fun u => u.id == uid) = true
  · rw [if_pos hc] at h
    injection h with h1 h2
    injection h1 with h1
    subst h1
    subst h2
    exact ⟨rfl, rfl⟩
  · rw [if_neg hc] at h
    injection h with h1 h2
    cases h1

/-- No request ever decreases either counter. -/
theorem runOp_counters_mono (g : GhostState) (op : Op) :
    g.app.user_id_counter ≤ (runOp g op).app.user_id_counter ∧
    g.app.message_id_counter ≤ (runOp g op).app.message_id_counter := by
  cases op with
  | opCreateUser p now =>
    by_cases hc : g.app.fake_users_db.any (fun x => x.email == p.email) = true
    · simp only [runOp, create_user, if_pos hc]
      exact ⟨Nat.le_refl _, Nat.le_refl _⟩
    · simp only [runOp, create_user, if_neg hc]
      exact ⟨Nat.le_succ _, Nat.le_refl _⟩
  | opDeleteUser uid =>
    by_cases hc : g.app.fake_users_db.any (fun u => u.id == uid) = true
    · simp only [runOp, delete_user, if_pos hc]
      exact ⟨Nat.le_refl _, Nat.le_refl _⟩
    · simp only [runOp, delete_user, if_neg hc]
      exact ⟨Nat.le_refl _, Nat.le_refl _⟩
  | opCreateMessage uid mc now =>
    by_cases hc : g.app.fake_users_db.any (fun u => u.id == uid) = true
    · simp only [runOp, create_message_for_user, if_pos hc]
      exact ⟨Nat.le_refl _, Nat.le_succ _⟩
    · simp only [runOp, create_message_for_user, if_neg hc]
      exact ⟨Nat.le_refl _, Nat.le_refl _⟩
  | opUpdateFull uid p =>
    cases hf : g.app.fake_users_db.find? (fun u => u.id == uid) with
    | none =>
      simp only [runOp, update_user_full, hf]
      exact ⟨Nat.le_refl _, Nat.le_refl _⟩
    | some u0 =>
      simp only [runOp, update_user_full, hf]
      exact ⟨Nat.le_refl _, Nat.le_refl _⟩
  | opUpdatePatch uid uu =>
    cases hf : g.app.fake_users_db.find? (fun u => u.id == uid) with
    | none =>
      simp only [runOp, update_user_partial, hf]
      exact ⟨Nat.le_refl _, Nat.le_refl _⟩
    | some u0 =>
      simp only [runOp, update_user_partial, hf]
      exact ⟨Nat.le_refl _, Nat.le_refl _⟩

/-- C9: in every store state reachable from the seed by any request trace,
the user ids are pairwise distinct and the message ids are pairwise distinct;
neither counter ever decreases along a step; and a successful create takes
the current counter as the new id, bumps the counter by one, and that id
differs from every id the store has ever assigned before. -/
theorem ids_unique_counters_increase_never_reused (ops : List Op) (t1 t2 : Nat) :
    (((runOps (seedGhost t1 t2) ops).app.fake_users_db.map (fun u => u.id)).Nodup ∧
     ((runOps (seedGhost t1 t2) ops).app.fake_messages_db.map (fun m => m.id)).Nodup) ∧
    (∀ op : Op,
      (runOps (seedGhost t1 t2) ops).app.user_id_counter ≤
        (runOp (runOps (seedGhost t1 t2) ops) op).app.user_id_counter ∧
      (runOps (seedGhost t1 t2) ops).app.message_id_counter ≤
        (runOp (runOps (seedGhost t1 t2) ops) op).app.message_id_counter) ∧
    (∀ p now u st2,
      create_user (runOps (seedGhost t1 t2) ops).app p now = (Except.ok u, st2) →
      u.id = (runOps (seedGhost t1 t2) ops).app.user_id_counter ∧
      st2.user_id_counter = (runOps (seedGhost t1 t2) ops).app.user_id_counter + 1 ∧
      u.id ∉ (runOps (seedGhost t1 t2) ops).userIdsEver) ∧
    (∀ uid mc now m st2,
      create_message_for_user (runOps (seedGhost t1 t2) ops).app uid mc now =
        (Except.ok m, st2) →
      m.id = (runOps (seedGhost t1 t2) ops).app.message_id_counter ∧
      st2.message_id_counter =
        (runOps (seedGhost t1 t2) ops).app.message_id_counter + 1 ∧
      m.id ∉ (runOps (seedGhost t1 t2) ops).messageIdsEver) := by
  have hinv : StoreInv (runOps (seedGhost t1 t2) ops) :=
    runOps_preserves ops (seedGhost t1 t2) (storeInv_seed t1 t2)
  refine ⟨⟨hinv.userNodup, hinv.msgNodup⟩,
    fun op => runOp_counters_mono (runOps (seedGhost t1 t2) ops) op, ?_, ?_⟩
  · intro p now u st2 hcr
    obtain ⟨hid, hcnt⟩ := create_user_ok_inv _ p now u st2 hcr
    refine ⟨hid, hcnt, ?_⟩
    intro hmem
    have := hinv.userEverBound u.id hmem
    omega
  · intro uid mc now m st2 hcr
    obtain ⟨hid, hcnt⟩ := create_message_ok_inv _ uid mc now m st2 hcr
    refine ⟨hid, hcnt, ?_⟩
    intro hmem
    have := hinv.msgEverBound m.id hmem
    omega

/-- C9 at a concrete input: after the empty trace from the seed, stored user
ids `[1, 2]` are distinct and creating a fresh user assigns id 3, bumps the
counter to 4, and 3 was never assigned before. -/
theorem ids_unique_counters_increase_never_reused_witness :
    ((runOps (seedGhost 0 0) []).app.fake_users_db.map (fun u => u.id)).Nodup ∧
    ((3 : Nat) = (runOps (seedGhost 0 0) []).app.user_id_counter ∧
      (create_user (runOps (seedGhost 0 0) []).app
        ⟨"petya", "petya@example.com", "secret1"⟩ 9).2.user_id_counter =
        (runOps (seedGhost 0 0) []).app.user_id_counter + 1 ∧
      (3 : Nat) ∉ (runOps (seedGhost 0 0) []).userIdsEver) := by
  have h := ids_unique_counters_increase_never_reused [] 0 0
  refine ⟨h.1.1, ?_⟩
  have h3 := h.2.2.1 ⟨"petya", "petya@example.com", "secret1"⟩ 9
    ⟨3, "petya", "petya@example.com", true, 9⟩
    (create_user (runOps (seedGhost 0 0) []).app
      ⟨"petya", "petya@example.com", "secret1"⟩ 9).2 rfl
  exact ⟨h3.1, h3.2.1, h3.2.2⟩

end App
